import Mathlib

/-!
Shallow embedding of the `static_jump_resolution` analysis core: the VEX IR
fragment it consumes, the variable model (`vars.py`), the context model
(`context.py`), the live-variables state (`live_vars.py`), the engine's
block-processing entry points (`engine.py`), and the supergraph builder and
worklist (`supergraph/`). Python values are modelled structurally; fallible
Python code (attribute lookups on objects without the attribute, unbound
names, calls with missing required arguments, `__hash__` methods that return
None) is modelled in `Except PyErr`.
-/

namespace SJR

/-- Python runtime errors raised by the embedded code paths. `simEngineErr`
stands for angr's `SimEngineError` family, the only class that
`SimEngineSJRVEX.process` catches. -/
inductive PyErr where
  | nameErr (name : String)
  | attrErr (name : String)
  | typeErr (msg : String)
  | simEngineErr (msg : String)
deriving DecidableEq, Repr

def PyErr.isSimEngineError : PyErr → Bool
  | .simEngineErr _ => true
  | _ => false

/-! ## The VEX IR fragment (pyvex expressions, statements, blocks) -/

/-- VEX IR type tags (`Ity_*`) consumed by `get_type_size`. -/
inductive Ty where
  | i1 | i8 | i16 | i32 | i64 | f32 | f64 | v128
deriving DecidableEq, Repr

/-- `pyvex.const.get_type_size`: the size of a type in bits. -/
def get_type_size : Ty → Nat
  | .i1 => 1
  | .i8 => 8
  | .i16 => 16
  | .i32 => 32
  | .i64 => 64
  | .f32 => 32
  | .f64 => 64
  | .v128 => 128

/-- `vars.get_type_size_bytes`: `pyvex.const.get_type_size(ty) / 8`. Python's
`/` is true division, so the result is a rational (fractional only for I1). -/
def get_type_size_bytes (ty : Ty) : ℚ := (get_type_size ty : ℚ) / 8

/-- pyvex IR expressions, restricted to the grammar the analysis consumes.
Operators and endianness are kept as the strings pyvex uses. A `Binop` always
has exactly two arguments (`args[0]`, `args[1]`). -/
inductive IRExpr where
  | get (offset : Nat) (ty : Ty)
  | rdTmp (tmp : Nat)
  | const (value : Int)
  | load (endness : String) (ty : Ty) (addr : IRExpr)
  | unop (op : String) (arg : IRExpr)
  | binop (op : String) (arg0 arg1 : IRExpr)
  | iteE (cond iftrue iffalse : IRExpr)
deriving DecidableEq, Repr

/-- `type(e) is IRExpr.Get` -/
def IRExpr.isGet : IRExpr → Bool
  | .get _ _ => true
  | _ => false

/-- `type(e) is IRExpr.Const` -/
def IRExpr.isConst : IRExpr → Bool
  | .const _ => true
  | _ => false

/-- pyvex IR statements, restricted to the variants of the source grammar. -/
inductive IRStmt where
  | iMark (addr delta len : Nat)
  | abiHint
  | noOp
  | put (data : IRExpr) (offset : Nat)
  | wrTmp (tmp : Nat) (data : IRExpr)
  | store (addr data : IRExpr) (endness : String)
  | exitS (guard dst : IRExpr) (jumpkind : String) (offsIP : Nat)
deriving DecidableEq, Repr

/-- The data of an angr block's VEX IRSB: `block.vex.statements`,
`block.vex.next`, `block.vex.jumpkind`. -/
structure Block where
  statements : List IRStmt
  next : IRExpr
  jumpkind : String
deriving DecidableEq, Repr

/-- The architecture descriptor fields the analysis reads. -/
structure Arch where
  sp_offset : Nat
  bp_offset : Nat
  ip_offset : Nat
deriving DecidableEq, Repr

/-- archinfo's AMD64 register-file offsets for rsp, rbp, rip. -/
def amd64 : Arch := ⟨48, 56, 184⟩

/-! ## Variable model (`vars.py`) -/

/-- The `Var` sum: `Register`, `StackVar`, `MemoryLocation`. Sizes are stored
as the rationals `get_type_size_bytes` produces. -/
inductive Var where
  | register (offset : Nat) (size : ℚ)
  | stackVar (fn_addr : Nat) (offset : Int) (size : ℚ)
  | memoryLocation (addr : IRExpr) (size : ℚ)
deriving DecidableEq, Repr

/-- The attributes of a context that `stack_var` reads: `ctx.fn_addr`,
`ctx.stack_ptr`, `ctx.base_ptr`. (The `ExecutionCtx` class of `context.py`
exposes `stack_ptr` and `base_ptr` but has no `fn_addr` attribute; `stack_var`
consumes its argument duck-typed through exactly these three names, so the
embedding models that interface directly.) -/
structure StackCtx where
  fn_addr : Nat
  stack_ptr : Int
  base_ptr : Int
deriving DecidableEq, Repr

def addOps : List String := ["Iop_Add8", "Iop_Add16", "Iop_Add32", "Iop_Add64"]

def subOps : List String := ["Iop_Sub8", "Iop_Sub16", "Iop_Sub32", "Iop_Sub64"]

/-- `vars.stack_var(addr, ctx, arch, ty)`: if the expression is an offset from
the stack or base pointer, the corresponding StackVar, else None. Mirrors the
source: direct `Get` of sp/bp; or a `Binop` that contains a `Get` and a
`Const` argument, whose operator is an Add/Sub of any width, destructured by
taking `args[0]` as the register when it is a `Get` and `(args[1], args[0])`
otherwise, and applying `op(pointer, const)` in that operand order. The final
wildcard row of the inner match is unreachable: the two `any` guards force the
destructured pair to be a `Get` and a `Const` (Python would raise
AttributeError there otherwise). -/
def stack_var (addr : IRExpr) (ctx : StackCtx) (arch : Option Arch) (ty : Ty) :
    Option Var :=
  match arch with
  | none => none
  | some arch =>
    let size := get_type_size_bytes ty
    match addr with
    | .get offset _ =>
        if offset = arch.sp_offset then
          some (.stackVar ctx.fn_addr ctx.stack_ptr size)
        else if offset = arch.bp_offset then
          some (.stackVar ctx.fn_addr ctx.base_ptr size)
        else none
    | .binop op a0 a1 =>
        if ¬(a0.isGet || a1.isGet) then none
        else if ¬(a0.isConst || a1.isConst) then none
        else
          let opKind : Option Bool :=
            if op ∈ addOps then some true
            else if op ∈ subOps then some false
            else none
          match opKind with
          | none => none
          | some isAdd =>
            let pair := if a0.isGet then (a0, a1) else (a1, a0)
            match pair.1, pair.2 with
            | .get regOffset _, .const c =>
                if regOffset = arch.sp_offset then
                  some (.stackVar ctx.fn_addr
                    (if isAdd then ctx.stack_ptr + c else ctx.stack_ptr - c) size)
                else if regOffset = arch.bp_offset then
                  some (.stackVar ctx.fn_addr
                    (if isAdd then ctx.base_ptr + c else ctx.base_ptr - c) size)
                else none
            | _, _ => none
    | _ => none

/-- `vars.memory_location(addr, ctx, arch, ty)`: try `stack_var` first; a
`StackVar` instance is always truthy in Python, so any `stack_var` result is
returned as-is, and otherwise a `MemoryLocation` over the raw address
expression is built. -/
def memory_location (addr : IRExpr) (ctx : StackCtx) (arch : Option Arch)
    (ty : Ty) : Var :=
  match stack_var addr ctx arch ty with
  | some v => v
  | none => .memoryLocation addr (get_type_size_bytes ty)

/-- Claim-side (C7) enumeration of the stack-relative address shapes:
`Get(sp)`, `Get(bp)`, or an Add/Sub `Binop` of `Get(sp|bp)` and a constant in
either argument order. -/
def isStackAddr (arch : Arch) : IRExpr → Bool
  | .get offset _ => offset == arch.sp_offset || offset == arch.bp_offset
  | .binop op a0 a1 =>
      (decide (op ∈ addOps) || decide (op ∈ subOps)) &&
      (match a0, a1 with
       | .get r _, .const _ => r == arch.sp_offset || r == arch.bp_offset
       | .const _, .get r _ => r == arch.sp_offset || r == arch.bp_offset
       | _, _ => false)
  | _ => false

/-! ## Indirect-jump recognition (`engine.is_indirect_jump`) -/

/-- `engine.is_indirect_jump` on an angr `Block`: None unless the jumpkind is
Boring or Call; then the terminal `next` expression when it is not a Const. -/
def is_indirect_jump_block (b : Block) : Option IRExpr :=
  if ¬(b.jumpkind = "Ijk_Boring" ∨ b.jumpkind = "Ijk_Call") then none
  else if ¬ b.next.isConst then some b.next
  else none

/-- `engine.is_indirect_jump` on an `IRStmt`: None unless the statement is an
`Exit`; then None unless its jumpkind is Boring or Call; then `dst` when it is
not a Const. -/
def is_indirect_jump_stmt (s : IRStmt) : Option IRExpr :=
  match s with
  | .exitS _ dst jk _ =>
      if ¬(jk = "Ijk_Boring" ∨ jk = "Ijk_Call") then none
      else if ¬ dst.isConst then some dst
      else none
  | _ => none

/-- Claim-side (C8) classifier for blocks: the target expression iff the
terminal `next` is non-constant AND the jumpkind is Boring or Call. -/
def ij_block_claim (b : Block) : Option IRExpr :=
  if b.next.isConst = false ∧ (b.jumpkind = "Ijk_Boring" ∨ b.jumpkind = "Ijk_Call")
  then some b.next else none

/-- Claim-side (C8) classifier for statements: the `dst` expression iff the
statement is an `Exit` with non-constant `dst` and jumpkind Boring or Call. -/
def ij_stmt_claim (s : IRStmt) : Option IRExpr :=
  match s with
  | .exitS _ dst jk _ =>
      if dst.isConst = false ∧ (jk = "Ijk_Boring" ∨ jk = "Ijk_Call")
      then some dst else none
  | _ => none

/-! ## CFG nodes and supergraph dummy nodes -/

/-- The data of an angr CFGNode that the analysis reads. `block_jumpkind` is
`n.block.vex.jumpkind`. -/
structure CFGNodeData where
  addr : Nat
  function_address : Nat
  instruction_addrs : List Nat
  has_return : Bool
  is_simprocedure : Bool
  block_jumpkind : String
deriving DecidableEq, Repr

/-- `supergraph.DummyNode`: a parent CFG node plus a `dummy_type` string,
`'Dummy_Call'` or `'Dummy_Ret'` (the constructor rejects anything else). -/
structure DummyNode where
  parent_node : CFGNodeData
  dummy_type : String
deriving DecidableEq, Repr

/-- `DummyNode.call_addr = self._parent_node.instruction_addrs[-1]`. Python
indexes the last element; CFG blocks always carry at least one instruction
address, so the default for the empty list is never consulted. -/
def DummyNode.call_addr (d : DummyNode) : Nat :=
  d.parent_node.instruction_addrs.getLastD 0

/-- `DummyNode.__eq__` as written evaluates `type(other) is CallNode`; the
name `CallNode` is bound nowhere in `supergraph.py` (nor imported), so every
comparison of DummyNodes raises NameError before reading any field. -/
def DummyNode.eqMethod (_self _other : DummyNode) : Except PyErr Bool :=
  .error (.nameErr "CallNode")

/-- `DummyNode.__hash__` evaluates `hash(('DummyNode', self.parent_node,
self.dummy_type))` but has no `return` statement, so the method returns None.
The integer value of the discarded hash expression is irrelevant to every
claim and is not modelled. -/
def DummyNode.hashMethod (_d : DummyNode) : Option Int := none

/-! ## Context model (`context.py`) -/

/-- `CtxRecord`: a dummy call node plus the pseudo-values of the stack and
base pointers at the time the call was recorded. -/
structure CtxRecord where
  node : DummyNode
  sp : Int
  bp : Int
deriving DecidableEq, Repr

/-- `CtxRecord.call_addr = self._node.call_addr`. -/
def CtxRecord.call_addr (r : CtxRecord) : Nat := r.node.call_addr

/-- `CtxRecord.__eq__` as executed: it evaluates `self._node == other._node`
and nothing else — `sp` and `bp` are ignored, as the method's own docstring
states. The node being a `DummyNode`, the comparison dispatches to
`DummyNode.__eq__`, which raises NameError("CallNode") before reading any
field (see `DummyNode.eqMethod`), so the method never returns a truth
value. -/
def CtxRecord.eqMethod (a b : CtxRecord) : Except PyErr Bool :=
  DummyNode.eqMethod a.node b.node

/-- `CtxRecord.__hash__` as executed: it evaluates
`hash(("CtxRecord", self._node))`; hashing the tuple hashes the node, and
`DummyNode.__hash__` returns None (see `DummyNode.hashMethod`), which
`hash()` rejects, so the method always raises TypeError. `sp` and `bp` are
never read. (The integer of the unreachable success branch is irrelevant to
every claim.) -/
def CtxRecord.hashMethod (r : CtxRecord) : Except PyErr Int :=
  match r.node.hashMethod with
  | some _ => .ok 0
  | none => .error (.typeErr "__hash__ method should return an integer")

/-- The Boolean `CtxRecord.__eq__` is written to compute: equality of the
call nodes, `sp` and `bp` ignored. The real method never returns it (see
`CtxRecord.eqMethod`); this total version is consulted only on code paths
whose guards decide before any record comparison runs — `CallString.__eq__`
at unequal lengths short-circuits on its length guard, and the orders
`__lt__`/`__le__` compare call-site addresses only. -/
def CtxRecord.pyEq (a b : CtxRecord) : Bool := a.node == b.node

/-- `CallString`: a stack of CtxRecords, bottom (oldest) first. -/
structure CallString where
  records : List CtxRecord
deriving DecidableEq, Repr

/-- The per-record call-site addresses, bottom first. -/
def CallString.callAddrs (cs : CallString) : List Nat :=
  cs.records.map CtxRecord.call_addr

/-- The value of the `for (n, m) in zip(...): if n != m: return False` loop
of `CallString.__eq__` under node-structural record equality. On any
nonempty zip the real loop raises NameError at its first record comparison
(`eqRecordsAuxE` is the faithful version); this total one is used only
behind guards that decide without reaching a record comparison (see
`CallString.pyEq`). -/
def eqRecordsAux : List CtxRecord → List CtxRecord → Bool
  | n :: ns, m :: ms => CtxRecord.pyEq n m && eqRecordsAux ns ms
  | _, _ => true

/-- The zip loop shared by `CallString.__eq__` and `CallString.can_represent`
as executed: `if n != m: return False` negates `CtxRecord.__eq__`, which
raises NameError("CallNode") on every call, so the loop errors as soon as
the zip is nonempty and returns True otherwise. -/
def eqRecordsAuxE : List CtxRecord → List CtxRecord → Except PyErr Bool
  | n :: ns, m :: ms => do
      let b ← CtxRecord.eqMethod n m
      if b then eqRecordsAuxE ns ms else pure false
  | _, _ => pure true

/-- `CallString.__eq__`: False on unequal lengths, else per-position record
equality over the zip. -/
def CallString.pyEq (a b : CallString) : Bool :=
  if a.records.length ≠ b.records.length then false
  else eqRecordsAux a.records b.records

/-- The loop of `CallString.__lt__`: walk the zip comparing per-position
call-site addresses; if the zip is exhausted undecided, a strictly shorter
left string wins and everything else (equal or longer) loses. -/
def ltAddrAux : List CtxRecord → List CtxRecord → Bool
  | n :: ns, m :: ms =>
      if n.call_addr < m.call_addr then true
      else if m.call_addr < n.call_addr then false
      else ltAddrAux ns ms
  | [], ms => !ms.isEmpty
  | _ :: _, [] => false

/-- `CallString.__lt__`: per-position address comparison first, length only as
the final tiebreaker. -/
def CallString.pyLt (a b : CallString) : Bool := ltAddrAux a.records b.records

/-- The loop of `CallString.__le__` (reached only on equal lengths): walk the
zip comparing per-position addresses; exhausted-undecided returns True. -/
def leAddrAux : List CtxRecord → List CtxRecord → Bool
  | n :: ns, m :: ms =>
      if n.call_addr < m.call_addr then true
      else if m.call_addr < n.call_addr then false
      else leAddrAux ns ms
  | _, _ => true

/-- `CallString.__le__`: length comparison first (shorter always ≤), then
per-position address comparison on equal lengths. -/
def CallString.pyLe (a b : CallString) : Bool :=
  if a.records.length < b.records.length then true
  else if b.records.length < a.records.length then false
  else leAddrAux a.records b.records

/-- `CallString.can_represent` as executed: False when the other string is
shorter (no record is compared), else the zip loop — which raises
NameError("CallNode") at the first record comparison whenever self is
nonempty (see `eqRecordsAuxE`). -/
def CallString.canRepresentE (a b : CallString) : Except PyErr Bool :=
  if b.records.length < a.records.length then pure false
  else eqRecordsAuxE a.records b.records

/-- Claim-side: is `xs` an initial segment (prefix) of `ys`? -/
def isInitSeg {α : Type} [DecidableEq α] : List α → List α → Bool
  | [], _ => true
  | _ :: _, [] => false
  | x :: xs, y :: ys => x == y && isInitSeg xs ys

/-- Claim-side (C5): on equal-length address lists, the comparison decided by
the first position at which the addresses differ. -/
def firstDiffLt : List Nat → List Nat → Bool
  | x :: xs, y :: ys =>
      if x < y then true
      else if y < x then false
      else firstDiffLt xs ys
  | _, _ => false

/-! ## Live-variables state (`live_vars.py`) -/

/-- `angr.analyses.code_location.CodeLocation`: `(block_addr, stmt_idx)`. -/
structure CodeLoc where
  block_addr : Nat
  stmt_idx : Nat
deriving DecidableEq, Repr

/-- `VarUse`: a use of a variable at a program point. -/
structure VarUse where
  var : Var
  codeloc : CodeLoc
deriving DecidableEq, Repr

/-- `QualifiedLiveSet`: a calling context (`ctx`) plus a Python set of
variable uses (`uses`), modelled as a finite set. -/
structure QualifiedLiveSet where
  ctx : CallString
  uses : Finset VarUse
deriving DecidableEq

/-- `QualifiedLiveSet.can_represent` as executed: `self.uses == other.uses
and self.ctx.can_represent(other.ctx)`. The set comparison is an ordinary
Boolean (`VarUse` hashes and compares normally) and the `and`
short-circuits, so the raising context comparison runs only when the uses
sets are equal. -/
def QualifiedLiveSet.canRepresentE (a b : QualifiedLiveSet) :
    Except PyErr Bool :=
  if a.uses == b.uses then CallString.canRepresentE a.ctx b.ctx
  else pure false

/-- The instance attributes of a `QualifiedLiveSet`:
`__slots__ = ['uses', 'ctx']`. -/
def qlsSlots : List String := ["uses", "ctx"]

/-- Attribute lookup on a `QualifiedLiveSet` instance: only the slot names
exist; any other name raises AttributeError. -/
def qlsAttrCheck (name : String) : Except PyErr Unit :=
  if name ∈ qlsSlots then .ok () else .error (.attrErr name)

/-- `QualifiedLiveSet.__hash__` evaluates
`hash(("QualifiedVars", self.vars, self.ctx))`. Building the tuple reads
`self.vars` first; `vars` is not among the instance's slots, so the lookup
raises AttributeError before anything is hashed. (Even with such an attribute
present the call would still fail, `self.uses` being a mutable set.) The
integer of the unreachable success case is irrelevant to every claim. -/
def QualifiedLiveSet.hashMethod (_q : QualifiedLiveSet) : Except PyErr Int := do
  qlsAttrCheck "vars"
  pure 0

/-- Constructing a Python set hashes each element before inserting it; the
set display `{ QualifiedLiveSet(CallString()) }` in `LiveVars.__init__` does
exactly that. (Deduplication is irrelevant here and not modelled.) -/
def pySetOfQLS (xs : List QualifiedLiveSet) : Except PyErr (List QualifiedLiveSet) := do
  let _ ← xs.mapM QualifiedLiveSet.hashMethod
  pure xs

/-- `LiveVars`: the per-node analysis state. `_livesets` is kept as a list
(Python builds a set; no claim depends on deduplication, and the iteration
order at most determines which of several identical errors surfaces
first). -/
structure LiveVars where
  arch : Arch
  fn_addr : Nat
  livesets : List QualifiedLiveSet
  sp : Int
  bp : Option Int
deriving DecidableEq

/-- `LiveVars.__init__(arch, fn_addr, livesets=None, sp=0, bp=None)`. With no
`livesets` argument it builds `{ QualifiedLiveSet(CallString()) }`, which
hashes the fresh element. With an iterable it executes `set(uses)`; the name
`uses` is bound neither in `__init__`'s scope (`self`, `arch`, `fn_addr`,
`livesets`, `sp`, `bp`) nor at module level in `live_vars.py` (whose globals
are the imports `CodeLocation`, `CtxRecord`, `CallString`, `ExecutionCtx`,
`Var`, `Register`, `StackVar`, `MemoryLocation`, `memory_location`,
`get_type_size_bytes`, `operator`, `reduce`, `pyvex`, `logging`, `l`, and the
defs `VarUse`, `QualifiedLiveSet`, `LiveVars`, `vars_modified`,
`vars_used_expr`, `vars_used`), so that branch raises NameError. -/
def LiveVars.init (arch : Arch) (fn_addr : Nat)
    (livesets : Option (List QualifiedLiveSet)) (sp : Int) (bp : Option Int) :
    Except PyErr LiveVars :=
  match livesets with
  | none => do
      let ls ← pySetOfQLS [⟨⟨[]⟩, ∅⟩]
      pure ⟨arch, fn_addr, ls, sp, bp⟩
  | some _ => .error (.nameErr "uses")

/-- `LiveVars.representative(liveset)` as executed:
`min((ls for ls in self._livesets if ls.can_represent(liveset)),
key=lambda ls: ls.ctx, default=None)`. `min` drains the generator, running
the (possibly raising) filter on each element in turn; with no passing
element it returns the default None, the first passing element becomes the
current minimum, and a later passing element replaces it only when its key
is strictly less under `CallString.__lt__` (which compares call-site
addresses only and cannot raise). -/
def LiveVars.representativeE (lv : LiveVars) (liveset : QualifiedLiveSet) :
    Except PyErr (Option QualifiedLiveSet) :=
  lv.livesets.foldlM (fun acc ls => do
      let c ← ls.canRepresentE liveset
      if c then
        match acc with
        | none => pure (some ls)
        | some cur =>
            if CallString.pyLt ls.ctx cur.ctx then pure (some ls)
            else pure (some cur)
      else pure acc)
    none

/-! ## Engine entry points (`engine.py`) -/

/-- `vars_used_expr` is declared `def vars_used_expr(expr, ctx, arch=None)`:
two required positional parameters. -/
def varsUsedExprRequiredArgs : Nat := 2

/-- Python's call protocol: supplying fewer positional arguments than the
required parameters raises TypeError before the callee's body runs. -/
def pyArityCheck (required given : Nat) (msg : String) : Except PyErr Unit :=
  if given < required then .error (.typeErr msg) else .ok ()

/-- The end-of-block step at the top of `SimEngineSJRVEX._process_Stmt`:

    if is_indirect_jump(self.block):
        target_vars = vars_used_expr(self.block.vex.next)
        self.state.gen_uses(*target_vars)

The call passes one positional argument to `vars_used_expr`, whose two
parameters `expr` and `ctx` are required, so Python raises TypeError before
any state is touched. The line after it is dead code; were it reached, it
would itself raise AttributeError, `LiveVars` defining no `gen_uses`
attribute (nor `kill_vars` / `gen_uses_if_live`, which `_handle_Stmt` calls).
On a block that is not an indirect jump this step leaves the state alone. -/
def engineEndOfBlockStep (block : Block) (state : LiveVars) :
    Except PyErr LiveVars :=
  match is_indirect_jump_block block with
  | some _ => do
      pyArityCheck varsUsedExprRequiredArgs 1
        "vars_used_expr() missing 1 required positional argument: ctx"
      .error (.attrErr "gen_uses")
  | none => pure state

/-- `SimEngineSJRVEX.process(state, *args, **kwargs)`: runs `self._process`
inside `try/except SimEngineError`; a caught error is re-raised when
`kwargs.pop('fail_fast', False)` is truthy and otherwise logged, after which
`self.state` (here: the state as of the failure) is returned. Errors of any
other class propagate. `fail_fast` is an optional keyword: `none` models the
keyword not being passed. -/
def SimEngineSJRVEX.process (fail_fast : Option Bool) (stateAtFailure : LiveVars)
    (inner : Except PyErr LiveVars) : Except PyErr LiveVars :=
  match inner with
  | .ok st => .ok st
  | .error e =>
      if e.isSimEngineError then
        if fail_fast.getD false then .error e else .ok stateAtFailure
      else .error e

/-! ## Supergraph builder (`supergraph/supergraph.py`) -/

/-- An input CFG: its nodes plus directed edges `(src addr, dst addr,
jumpkind)`. The embedding takes the CFG as already normalized (the
`normalize()` calls in the source only mutate the angr analysis). -/
structure CFG where
  nodes : List CFGNodeData
  edges : List (Nat × Nat × String)
deriving DecidableEq, Repr

/-- `cfg.model.get_successors(n, jumpkind=jk)`: the nodes reached from `n` by
an edge with the given jumpkind. -/
def CFG.get_successors (cfg : CFG) (n : CFGNodeData) (jk : String) :
    List CFGNodeData :=
  cfg.nodes.filter (fun m =>
    cfg.edges.any (fun e => e.1 == n.addr && e.2.1 == m.addr && e.2.2 == jk))

/-- `cfg.model.get_successors_and_jumpkind(n)`. -/
def CFG.succAndJk (cfg : CFG) (n : CFGNodeData) : List (CFGNodeData × String) :=
  (cfg.edges.filter (fun e => e.1 == n.addr)).filterMap
    (fun e => (cfg.nodes.find? (fun m => m.addr == e.2.1)).map (fun m => (m, e.2.2)))

/-- The `fn_rets` table of `supergraph_from_cfg`: per function address, the
nodes with `has_return` or `is_simprocedure`. -/
def CFG.fnRets (cfg : CFG) (fnaddr : Nat) : List CFGNodeData :=
  cfg.nodes.filter (fun m =>
    m.function_address == fnaddr && (m.has_return || m.is_simprocedure))

/-- A supergraph node: a CFG node or a dummy node. -/
inductive SGNode where
  | cfgNode (n : CFGNodeData)
  | dummy (d : DummyNode)
deriving DecidableEq, Repr

/-- The supergraph: nodes plus edges carrying a jumpkind attribute.
(networkx deduplicates nodes and edges; no claim depends on that.) -/
structure Supergraph where
  nodes : List SGNode
  edges : List (SGNode × SGNode × String)
deriving DecidableEq, Repr

def Supergraph.addNode (g : Supergraph) (n : SGNode) : Supergraph :=
  ⟨g.nodes ++ [n], g.edges⟩

def Supergraph.addEdge (g : Supergraph) (s t : SGNode) (jk : String) : Supergraph :=
  ⟨g.nodes, g.edges ++ [(s, t, jk)]⟩

/-- Hashing a node, as networkx's node dict does on insertion: angr CFGNodes
hash normally; a DummyNode's `__hash__` returns None (see
`DummyNode.hashMethod`), which `hash()` rejects with TypeError. -/
def SGNode.pyHashCheck : SGNode → Except PyErr Unit
  | .cfgNode _ => .ok ()
  | .dummy d =>
      match d.hashMethod with
      | some _ => .ok ()
      | none => .error (.typeErr "__hash__ method should return an integer")

/-- `supergraph.supergraph_from_cfg(cfg)`: copy the CFG nodes, then for each
non-simprocedure node — if its block ends in `Ijk_Call`, create the dummy
call/ret nodes (`add_nodes_from` hashes each before inserting), wire
`n → call [Boring]`, `ret → fakeret-successor [Boring]`,
`call → call-target [Call]` and `fn-return → ret [Ret]` edges; otherwise copy
its non-`Ijk_Ret` out-edges with their jumpkind. -/
def supergraph_from_cfg (cfg : CFG) : Except PyErr Supergraph :=
  cfg.nodes.foldlM (fun g n => do
    if n.is_simprocedure then
      pure g
    else if n.block_jumpkind == "Ijk_Call" then do
      let callnode : DummyNode := ⟨n, "Dummy_Call"⟩
      let retnode : DummyNode := ⟨n, "Dummy_Ret"⟩
      SGNode.pyHashCheck (.dummy callnode)
      SGNode.pyHashCheck (.dummy retnode)
      let g := (g.addNode (.dummy callnode)).addNode (.dummy retnode)
      let call_targets := cfg.get_successors n "Ijk_Call"
      let ret_targets := cfg.get_successors n "Ijk_FakeRet"
      let g := g.addEdge (.cfgNode n) (.dummy callnode) "Ijk_Boring"
      let g := ret_targets.foldl
        (fun g t => g.addEdge (.dummy retnode) (.cfgNode t) "Ijk_Boring") g
      let g := call_targets.foldl (fun g t =>
        let g := g.addEdge (.dummy callnode) (.cfgNode t) "Ijk_Call"
        (cfg.fnRets t.function_address).foldl
          (fun g r => g.addEdge (.cfgNode r) (.dummy retnode) "Ijk_Ret") g) g
      pure g
    else
      pure ((cfg.succAndJk n).foldl
        (fun g sjk =>
          if sjk.2 ≠ "Ijk_Ret" then g.addEdge (.cfgNode n) (.cfgNode sjk.1) sjk.2
          else g) g))
    ⟨cfg.nodes.map SGNode.cfgNode, []⟩

/-! ## Worklist (`supergraph/__init__.py`) -/

/-- `supergraph/__init__.node_is_entry`: `type(node) is CFGNode and
node.function_address == node.addr`. (As written the module never imports
`CFGNode`, so an actual call raises NameError("CFGNode"); the function is
only ever reached from dead code here — see `Worklist.add`.) -/
def node_is_entry : SGNode → Bool
  | .cfgNode n => n.function_address == n.addr
  | .dummy _ => false

/-- `supergraph/__init__.node_is_exit` (same CFGNode caveat). -/
def node_is_exit : SGNode → Bool
  | .cfgNode n => n.has_return
  | .dummy _ => false

/-- `supergraph/__init__.node_is_call`. -/
def node_is_call : SGNode → Bool
  | .dummy d => d.dummy_type == "Dummy_Call"
  | _ => false

/-- `supergraph/__init__.node_is_ret`. -/
def node_is_ret : SGNode → Bool
  | .dummy d => d.dummy_type == "Dummy_Ret"
  | _ => false

/-- The names bound at module level in `supergraph/__init__.py`: the imports
and the module's own definitions. -/
def supergraphInitGlobals : List String :=
  ["GraphVisitor", "CallGraphVisitor", "Function", "CFGUtils",
   "supergraph_from_cfg", "DummyNode", "pyvex", "node_is_entry",
   "node_is_exit", "node_is_call", "node_is_ret", "Worklist",
   "SupergraphVisitor"]

/-- The four sub-lists of the intraprocedurally eager worklist. -/
structure Worklist where
  direction : String
  intra_list : List SGNode
  fn_boundary_list : List SGNode
  call_list : List SGNode
  ret_list : List SGNode
deriving DecidableEq, Repr

/-- The dispatch `Worklist.add` intends, applied to a resolved node value:
entries and exits go to `_intra_list` or `_fn_boundary_list` depending on the
direction, call/ret dummies to their lists, everything else to
`_intra_list`. -/
def Worklist.addDispatch (wl : Worklist) (n : SGNode) : Worklist :=
  if node_is_entry n then
    if wl.direction == "forward" then
      { wl with intra_list := wl.intra_list ++ [n] }
    else
      { wl with fn_boundary_list := wl.fn_boundary_list ++ [n] }
  else if node_is_exit n then
    if wl.direction == "forward" then
      { wl with fn_boundary_list := wl.fn_boundary_list ++ [n] }
    else
      { wl with intra_list := wl.intra_list ++ [n] }
  else if node_is_call n then { wl with call_list := wl.call_list ++ [n] }
  else if node_is_ret n then { wl with ret_list := wl.ret_list ++ [n] }
  else { wl with intra_list := wl.intra_list ++ [n] }

/-- `Worklist.add(self, node)`. Every branch of its body tests and appends
the name `n`; the method's scope binds only `self` and `node`, and no
module-level name is `n` either (see `supergraphInitGlobals`), so evaluating
the first expression `node_is_entry(n)` raises NameError before any list is
appended to. The first arm below is decidably dead; it records what the
dispatch would do were a binding for `n` present and denoting the node
argument (in fact `node_is_entry` would then raise NameError("CFGNode")
first, `CFGNode` being unimported). -/
def Worklist.add (wl : Worklist) (node : SGNode) : Except PyErr Worklist :=
  if "n" ∈ ["self", "node"] ∨ "n" ∈ supergraphInitGlobals then
    .ok (wl.addDispatch node)
  else
    .error (.nameErr "n")

/-- `Worklist.__init__(direction='forward', nodes=None)`: store the
direction, `self.clear()` the four lists, then `self.add(n)` for each initial
node when an iterable is given. -/
def Worklist.init (direction : String) (nodes : Option (List SGNode)) :
    Except PyErr Worklist :=
  let wl : Worklist := ⟨direction, [], [], [], []⟩
  match nodes with
  | none => pure wl
  | some ns => ns.foldlM Worklist.add wl

/-! ## Concrete inputs used by counterexamples and witnesses -/

/-- A minimal CFG node at address `a` whose block ends in a call. -/
def cfgNodeAt (a : Nat) : CFGNodeData := ⟨a, a, [a], false, false, "Ijk_Call"⟩

/-- A dummy call node whose call-site address is `a`. -/
def callNodeAt (a : Nat) : DummyNode := ⟨cfgNodeAt a, "Dummy_Call"⟩

/-- A call record at call-site address `a` with fixed pointer snapshots. -/
def recAt (a : Nat) : CtxRecord := ⟨callNodeAt a, -24, -8⟩

/-- Two records sharing a call node but with different stack-pointer
snapshots. -/
def rec6a : CtxRecord := ⟨callNodeAt 7, 0, 0⟩

def rec6b : CtxRecord := ⟨callNodeAt 7, 1, 0⟩

/-- A one-record call string whose single call-site address is 5. -/
def cs5A : CallString := ⟨[recAt 5]⟩

/-- A two-record call string with call-site addresses 3, 4. -/
def cs5B : CallString := ⟨[recAt 3, recAt 4]⟩

/-- A block ending in an indirect jump: non-constant `next` (a register
read), jumpkind Boring. -/
def ijBlockW : Block := ⟨[], .get 16 .i64, "Ijk_Boring"⟩

/-- A live-vars state with the single empty qualified live set. -/
def stateW : LiveVars := ⟨amd64, 0, [⟨⟨[]⟩, ∅⟩], 0, none⟩

/-- A live-vars state used by the engine-process witness. -/
def stateW9 : LiveVars := ⟨amd64, 4096, [], 0, none⟩

def s6caller : CFGNodeData := ⟨0, 0, [0], false, false, "Ijk_Call"⟩

def s6callee : CFGNodeData := ⟨16, 16, [16], true, false, "Ijk_Ret"⟩

def s6after : CFGNodeData := ⟨9, 0, [9], true, false, "Ijk_Ret"⟩

/-- The S6 scenario CFG: a caller block at 0x0 calling the callee at 0x10,
which returns to the fall-through block at 0x9. -/
def s6cfg : CFG :=
  ⟨[s6caller, s6callee, s6after],
   [(0, 16, "Ijk_Call"), (0, 9, "Ijk_FakeRet"), (16, 9, "Ijk_Ret")]⟩

/-- A qualified live set with an empty use set under the two-record context
`[3, 4]`. -/
def c4q : QualifiedLiveSet := ⟨⟨[recAt 3, recAt 4]⟩, ∅⟩

/-- A state holding two qualified live sets with equal (empty) uses whose
contexts are prefixes of `c4q`'s context, the longer one listed first. -/
def c4state : LiveVars :=
  ⟨amd64, 0, [⟨⟨[recAt 3, recAt 4]⟩, ∅⟩, ⟨⟨[recAt 3]⟩, ∅⟩], 0, none⟩

/-! ## Theorems -/

theorem ltAddrAux_eq_firstDiff :
    ∀ ns ms : List CtxRecord, ns.length = ms.length →
      ltAddrAux ns ms =
        firstDiffLt (ns.map CtxRecord.call_addr) (ms.map CtxRecord.call_addr)
  | [], [], _ => rfl
  | [], _ :: _, h => by simp at h
  | _ :: _, [], h => by simp at h
  | n :: ns, m :: ms, h => by
      simp only [ltAddrAux, firstDiffLt, List.map]
      rw [ltAddrAux_eq_firstDiff ns ms (by simpa using h)]

theorem ltAddrAux_of_initSeg :
    ∀ ns ms : List CtxRecord,
      isInitSeg (ns.map CtxRecord.call_addr) (ms.map CtxRecord.call_addr) = true →
      ns.length < ms.length → ltAddrAux ns ms = true
  | [], [], _, hlen => by simp at hlen
  | [], _ :: _, _, _ => rfl
  | _ :: _, [], _, hlen => by simp at hlen
  | n :: ns, m :: ms, h, hlen => by
      simp only [List.map, isInitSeg, Bool.and_eq_true, beq_iff_eq] at h
      have hrec := ltAddrAux_of_initSeg ns ms h.2 (by simpa using hlen)
      simp [ltAddrAux, h.1, hrec]

theorem leAddrAux_iff :
    ∀ ns ms : List CtxRecord, ns.length = ms.length →
      (leAddrAux ns ms = true ↔
        (ltAddrAux ns ms = true ∨
          ns.map CtxRecord.call_addr = ms.map CtxRecord.call_addr))
  | [], [], _ => by simp [leAddrAux, ltAddrAux]
  | [], _ :: _, h => by simp at h
  | _ :: _, [], h => by simp at h
  | n :: ns, m :: ms, h => by
      rcases lt_trichotomy n.call_addr m.call_addr with hlt | heq | hgt
      · simp [leAddrAux, ltAddrAux, hlt]
      · have IH := leAddrAux_iff ns ms (by simpa using h)
        simp only [leAddrAux, ltAddrAux, heq, lt_irrefl, if_false, List.map,
          List.cons.injEq]
        rw [IH]
        tauto
      · have h1 : ¬ n.call_addr < m.call_addr := lt_asymm hgt
        have h2 : n.call_addr ≠ m.call_addr := ne_of_gt hgt
        simp [leAddrAux, ltAddrAux, h1, hgt, h2]

/-- Claim C5 amended: the two comparison methods implement different orders.
`__le__` is length-primary: a strictly shorter call string always satisfies
`A <= B`, and on equal lengths `A <= B` holds iff `A < B` or the two strings
have equal per-position call-site addresses. `__lt__` is position-primary: on
equal-length strings it is decided by the first position at which the
call-site addresses differ, and a strictly shorter `A` satisfies `A < B`
(only) when `A`'s address sequence is a prefix of `B`'s, length then acting
as the tiebreaker. -/
theorem c5_callstring_order_amended (a b : CallString) :
    (a.records.length = b.records.length →
      CallString.pyLt a b = firstDiffLt a.callAddrs b.callAddrs) ∧
    (isInitSeg a.callAddrs b.callAddrs = true →
      a.records.length < b.records.length → CallString.pyLt a b = true) ∧
    (CallString.pyLe a b = true ↔
      (a.records.length < b.records.length ∨
        (a.records.length = b.records.length ∧
          (CallString.pyLt a b = true ∨ a.callAddrs = b.callAddrs)))) := by
  refine ⟨?_, ?_, ?_⟩
  · intro h
    exact ltAddrAux_eq_firstDiff a.records b.records h
  · intro hseg hlen
    exact ltAddrAux_of_initSeg a.records b.records hseg hlen
  · unfold CallString.pyLe
    rcases lt_trichotomy a.records.length b.records.length with hlt | heq | hgt
    · simp [hlt]
    · have h1 : ¬ a.records.length < b.records.length := by omega
      have h2 : ¬ b.records.length < a.records.length := by omega
      rw [if_neg h1, if_neg h2, leAddrAux_iff a.records b.records heq]
      unfold CallString.pyLt CallString.callAddrs
      tauto
    · have h1 : ¬ a.records.length < b.records.length := by omega
      have h2 : a.records.length ≠ b.records.length := by omega
      simp [hgt, h1, h2]

/-- Witness for the amended C5: on the equal-length pair the first differing
address decides, and a string that is a strict address-prefix of another is
strictly below it. -/
theorem c5_callstring_order_amended_witness :
    CallString.pyLt ⟨[recAt 3]⟩ ⟨[recAt 5]⟩ =
      firstDiffLt (CallString.callAddrs ⟨[recAt 3]⟩)
        (CallString.callAddrs ⟨[recAt 5]⟩) ∧
    CallString.pyLt ⟨[recAt 3]⟩ ⟨[recAt 3, recAt 4]⟩ = true :=
  ⟨(c5_callstring_order_amended ⟨[recAt 3]⟩ ⟨[recAt 5]⟩).1 (by decide),
   (c5_callstring_order_amended ⟨[recAt 3]⟩ ⟨[recAt 3, recAt 4]⟩).2.1
     (by decide) (by decide)⟩

/-- Claim C8: `is_indirect_jump` classifies a block as an indirect jump,
returning its `next` expression, iff `next` is not a constant and the
jumpkind is Boring or Call; and classifies a statement as an indirect jump,
returning its `dst`, iff it is an `Exit` with non-constant `dst` and jumpkind
Boring or Call. -/
theorem c8_is_indirect_jump_iff :
    (∀ b : Block, is_indirect_jump_block b = ij_block_claim b) ∧
    (∀ s : IRStmt, is_indirect_jump_stmt s = ij_stmt_claim s) := by
  constructor
  · intro b
    unfold is_indirect_jump_block ij_block_claim
    by_cases hj : b.jumpkind = "Ijk_Boring" ∨ b.jumpkind = "Ijk_Call" <;>
      by_cases hc : b.next.isConst = true <;>
      simp [hj, hc]
  · intro s
    cases s <;> simp only [is_indirect_jump_stmt, ij_stmt_claim]
    case exitS g dst jk o =>
      by_cases hj : jk = "Ijk_Boring" ∨ jk = "Ijk_Call" <;>
        by_cases hc : dst.isConst = true <;>
        simp [hj, hc]

/-- Claim C3 (code bug): `LiveVars(arch, fn_addr)` with no `livesets`
argument does not yield the state with a single empty qualified live set; it
raises AttributeError('vars') while hashing the fresh `QualifiedLiveSet`
into the set display, `QualifiedLiveSet.__hash__` reading the nonexistent
attribute `self.vars`. -/
theorem c3_livevars_init_raises :
    LiveVars.init amd64 0 none 0 none = .error (.attrErr "vars") := rfl

/-- Claim C1 (code bug): on a block that is an indirect jump, the engine's
end-of-block step does not add the `next` expression's variables to the
qualified live sets; it raises TypeError, `vars_used_expr` being called with
one positional argument where two are required. -/
theorem c1_end_of_block_gen_raises :
    is_indirect_jump_block ijBlockW = some (.get 16 .i64) ∧
    engineEndOfBlockStep ijBlockW stateW =
      .error (.typeErr
        "vars_used_expr() missing 1 required positional argument: ctx") :=
  ⟨rfl, rfl⟩

/-- Claim C2 (code bug): on the S6 CFG (caller at 0x0 calling 0x10 with
fall-through 0x9), `supergraph_from_cfg` does not build the dummy nodes and
the four interprocedural edges; inserting the dummy call node hashes it, and
`DummyNode.__hash__` returns None, so TypeError is raised. -/
theorem c2_supergraph_hash_raises :
    supergraph_from_cfg s6cfg =
      .error (.typeErr "__hash__ method should return an integer") := rfl

/-- Claim C9: `SimEngineSJRVEX.process` returns the engine state normally;
a SimEngineError raised while processing the block is re-raised exactly when
the `fail_fast` option is passed and truthy and is otherwise swallowed (the
current state is returned); errors of other classes always propagate. -/
theorem c9_process_catches (fail_fast : Option Bool)
    (stateAtFailure st : LiveVars) (e : PyErr) :
    (SimEngineSJRVEX.process fail_fast stateAtFailure (.ok st) = .ok st) ∧
    (e.isSimEngineError = true →
      SimEngineSJRVEX.process fail_fast stateAtFailure (.error e) =
        if fail_fast.getD false then .error e else .ok stateAtFailure) ∧
    (e.isSimEngineError = false →
      SimEngineSJRVEX.process fail_fast stateAtFailure (.error e) = .error e) := by
  refine ⟨rfl, ?_, ?_⟩
  · intro he
    simp [SimEngineSJRVEX.process, he]
  · intro he
    simp [SimEngineSJRVEX.process, he]

/-- Witness for C9 at a concrete SimEngineError: with `fail_fast=True` the
error propagates; with `fail_fast` absent the state is returned. -/
theorem c9_process_catches_witness :
    (PyErr.simEngineErr "lifting failed").isSimEngineError = true ∧
    SimEngineSJRVEX.process (some true) stateW9
        (.error (.simEngineErr "lifting failed")) =
      .error (.simEngineErr "lifting failed") ∧
    SimEngineSJRVEX.process none stateW9
        (.error (.simEngineErr "lifting failed")) = .ok stateW9 :=
  ⟨rfl,
   by simpa using
     (c9_process_catches (some true) stateW9 stateW9
       (.simEngineErr "lifting failed")).2.1 rfl,
   by simpa using
     (c9_process_catches none stateW9 stateW9
       (.simEngineErr "lifting failed")).2.1 rfl⟩

/-- Claim C10: `Worklist.add` always raises NameError('n') before inserting
anything — the name `n` its body tests and appends is bound neither in the
method scope nor at module level — so no node can be added through the public
interface: `add` itself fails on every input, the constructor fails on any
non-empty initial-nodes iterable, and without initial nodes the worklist
starts (and stays) empty. -/
theorem c10_worklist_add_nameerror :
    (∀ (wl : Worklist) (node : SGNode), wl.add node = .error (.nameErr "n")) ∧
    (∀ (dir : String) (node : SGNode) (ns : List SGNode),
      Worklist.init dir (some (node :: ns)) = .error (.nameErr "n")) ∧
    (∀ dir : String, Worklist.init dir none = .ok ⟨dir, [], [], [], []⟩) :=
  ⟨fun _ _ => rfl, fun _ _ _ => rfl, fun _ => rfl⟩

/-- Claim C6 counterexample: comparing two call records never yields the
claimed truth value. At `rec6a`/`rec6b` — same call node, different
stack-pointer snapshots — the claim says the records are distinct, and at
`rec6a`/`rec6a` — same node and both pointer values equal — it says they are
equal; in fact `CtxRecord.__eq__` raises NameError("CallNode") in both
cases (via the broken `DummyNode.__eq__`), and `CtxRecord.__hash__` raises
TypeError (via `DummyNode.__hash__` returning None), so neither equality nor
hash agreement ever holds or fails as claimed. -/
theorem c6_counterexample :
    rec6a.node = rec6b.node ∧ rec6a.sp ≠ rec6b.sp ∧
    CtxRecord.eqMethod rec6a rec6b = .error (.nameErr "CallNode") ∧
    CtxRecord.eqMethod rec6a rec6a = .error (.nameErr "CallNode") ∧
    CtxRecord.hashMethod rec6a =
      .error (.typeErr "__hash__ method should return an integer") :=
  ⟨rfl, by decide, rfl, rfl, rfl⟩

/-- Claim C6 amended: comparing call records never returns a truth value and
hashing them never returns an integer. `CtxRecord.__eq__` reads only the
call nodes — the pointer values are ignored, as its docstring states — and
the node comparison raises NameError("CallNode") because `DummyNode.__eq__`
references that unbound name; `CtxRecord.__hash__` hashes a key containing
the node and raises TypeError because `DummyNode.__hash__` returns None. In
particular records with the same call node but different pointer snapshots
are never distinguished. -/
theorem c6_ctxrecord_eq_amended (a b : CtxRecord) :
    CtxRecord.eqMethod a b = .error (.nameErr "CallNode") ∧
    CtxRecord.hashMethod a =
      .error (.typeErr "__hash__ method should return an integer") :=
  ⟨rfl, rfl⟩

/-- Claim C4 (code bug): on a state holding two candidate live sets (uses
equal to `c4q`'s, contexts `[3]` and `[3, 4]`) and a query with context
`[3, 4]`, `representative` does not return the shortest-prefix candidate:
the filter evaluates `can_represent`, whose zip compares two CtxRecords, and
`CtxRecord.__eq__` raises NameError("CallNode") through the broken
`DummyNode.__eq__`. -/
theorem c4_representative_raises :
    c4state.livesets.all (fun ls => ls.uses == c4q.uses) = true ∧
    LiveVars.representativeE c4state c4q = .error (.nameErr "CallNode") :=
  ⟨rfl, rfl⟩

/-- Claim C5 counterexample: `cs5A` has fewer records than `cs5B`, yet
`cs5A < cs5B` is False (the first zipped position decides: 5 > 3), while
`cs5A <= cs5B` is True and `cs5A == cs5B` is False. So length is not the
primary key of `__lt__`, and `A <= B` is not equivalent to
`A < B or A == B`. -/
theorem c5_counterexample :
    cs5A.records.length < cs5B.records.length ∧
    CallString.pyLt cs5A cs5B = false ∧
    CallString.pyLe cs5A cs5B = true ∧
    CallString.pyEq cs5A cs5B = false := by decide

theorem stack_var_classify (arch : Arch) (ctx : StackCtx) (ty : Ty) :
    ∀ addr : IRExpr,
      (isStackAddr arch addr = false →
        stack_var addr ctx (some arch) ty = none) ∧
      (isStackAddr arch addr = true →
        ∃ fn off, stack_var addr ctx (some arch) ty =
          some (.stackVar fn off (get_type_size_bytes ty))) := by
  intro addr
  cases addr with
  | get offset gty =>
      constructor
      · intro hf
        simp only [isStackAddr, Bool.or_eq_false_iff, beq_eq_false_iff_ne,
          ne_eq] at hf
        simp [stack_var, hf.1, hf.2]
      · intro ht
        simp only [isStackAddr, Bool.or_eq_true, beq_iff_eq] at ht
        by_cases hsp : offset = arch.sp_offset
        · exact ⟨ctx.fn_addr, ctx.stack_ptr, by simp [stack_var, hsp]⟩
        · have hbp : offset = arch.bp_offset := by tauto
          by_cases hdeg : arch.bp_offset = arch.sp_offset
          · exact ⟨ctx.fn_addr, ctx.stack_ptr, by simp [stack_var, hbp, hdeg]⟩
          · exact ⟨ctx.fn_addr, ctx.base_ptr,
              by simp [stack_var, hsp, hbp, hdeg]⟩
  | binop op a0 a1 =>
      cases a0 <;> cases a1 <;>
        try exact ⟨fun _ => rfl,
          fun ht => by simp [isStackAddr, Bool.and_false] at ht⟩
      case get.const rOff rTy cVal =>
        constructor
        · intro hf
          simp only [isStackAddr, Bool.and_eq_false_iff, Bool.or_eq_false_iff,
            decide_eq_false_iff_not, beq_eq_false_iff_ne, ne_eq] at hf
          rcases hf with ⟨hadd, hsub⟩ | ⟨hsp, hbp⟩
          · simp [stack_var, IRExpr.isGet, IRExpr.isConst, hadd, hsub]
          · by_cases hadd : op ∈ addOps
            · simp [stack_var, IRExpr.isGet, IRExpr.isConst, hadd, hsp, hbp]
            · by_cases hsub : op ∈ subOps
              · simp [stack_var, IRExpr.isGet, IRExpr.isConst, hadd, hsub,
                  hsp, hbp]
              · simp [stack_var, IRExpr.isGet, IRExpr.isConst, hadd, hsub]
        · intro ht
          simp only [isStackAddr, Bool.and_eq_true, Bool.or_eq_true,
            decide_eq_true_eq, beq_iff_eq] at ht
          obtain ⟨hop, hreg⟩ := ht
          by_cases hadd : op ∈ addOps
          · by_cases hsp : rOff = arch.sp_offset
            · exact ⟨ctx.fn_addr, ctx.stack_ptr + cVal,
                by simp [stack_var, IRExpr.isGet, IRExpr.isConst, hadd, hsp]⟩
            · have hbp : rOff = arch.bp_offset := by tauto
              by_cases hdeg : arch.bp_offset = arch.sp_offset
              · exact ⟨ctx.fn_addr, ctx.stack_ptr + cVal,
                  by simp [stack_var, IRExpr.isGet, IRExpr.isConst, hadd, hbp,
                    hdeg]⟩
              · exact ⟨ctx.fn_addr, ctx.base_ptr + cVal,
                  by simp [stack_var, IRExpr.isGet, IRExpr.isConst, hadd, hsp,
                    hbp, hdeg]⟩
          · have hsub : op ∈ subOps := by tauto
            by_cases hsp : rOff = arch.sp_offset
            · exact ⟨ctx.fn_addr, ctx.stack_ptr - cVal,
                by simp [stack_var, IRExpr.isGet, IRExpr.isConst, hadd, hsub,
                  hsp]⟩
            · have hbp : rOff = arch.bp_offset := by tauto
              by_cases hdeg : arch.bp_offset = arch.sp_offset
              · exact ⟨ctx.fn_addr, ctx.stack_ptr - cVal,
                  by simp [stack_var, IRExpr.isGet, IRExpr.isConst, hadd, hsub,
                    hbp, hdeg]⟩
              · exact ⟨ctx.fn_addr, ctx.base_ptr - cVal,
                  by simp [stack_var, IRExpr.isGet, IRExpr.isConst, hadd, hsub,
                    hsp, hbp, hdeg]⟩
      case const.get cVal rOff rTy =>
        constructor
        · intro hf
          simp only [isStackAddr, Bool.and_eq_false_iff, Bool.or_eq_false_iff,
            decide_eq_false_iff_not, beq_eq_false_iff_ne, ne_eq] at hf
          rcases hf with ⟨hadd, hsub⟩ | ⟨hsp, hbp⟩
          · simp [stack_var, IRExpr.isGet, IRExpr.isConst, hadd, hsub]
          · by_cases hadd : op ∈ addOps
            · simp [stack_var, IRExpr.isGet, IRExpr.isConst, hadd, hsp, hbp]
            · by_cases hsub : op ∈ subOps
              · simp [stack_var, IRExpr.isGet, IRExpr.isConst, hadd, hsub,
                  hsp, hbp]
              · simp [stack_var, IRExpr.isGet, IRExpr.isConst, hadd, hsub]
        · intro ht
          simp only [isStackAddr, Bool.and_eq_true, Bool.or_eq_true,
            decide_eq_true_eq, beq_iff_eq] at ht
          obtain ⟨hop, hreg⟩ := ht
          by_cases hadd : op ∈ addOps
          · by_cases hsp : rOff = arch.sp_offset
            · exact ⟨ctx.fn_addr, ctx.stack_ptr + cVal,
                by simp [stack_var, IRExpr.isGet, IRExpr.isConst, hadd, hsp]⟩
            · have hbp : rOff = arch.bp_offset := by tauto
              by_cases hdeg : arch.bp_offset = arch.sp_offset
              · exact ⟨ctx.fn_addr, ctx.stack_ptr + cVal,
                  by simp [stack_var, IRExpr.isGet, IRExpr.isConst, hadd, hbp,
                    hdeg]⟩
              · exact ⟨ctx.fn_addr, ctx.base_ptr + cVal,
                  by simp [stack_var, IRExpr.isGet, IRExpr.isConst, hadd, hsp,
                    hbp, hdeg]⟩
          · have hsub : op ∈ subOps := by tauto
            by_cases hsp : rOff = arch.sp_offset
            · exact ⟨ctx.fn_addr, ctx.stack_ptr - cVal,
                by simp [stack_var, IRExpr.isGet, IRExpr.isConst, hadd, hsub,
                  hsp]⟩
            · have hbp : rOff = arch.bp_offset := by tauto
              by_cases hdeg : arch.bp_offset = arch.sp_offset
              · exact ⟨ctx.fn_addr, ctx.stack_ptr - cVal,
                  by simp [stack_var, IRExpr.isGet, IRExpr.isConst, hadd, hsub,
                    hbp, hdeg]⟩
              · exact ⟨ctx.fn_addr, ctx.base_ptr - cVal,
                  by simp [stack_var, IRExpr.isGet, IRExpr.isConst, hadd, hsub,
                    hsp, hbp, hdeg]⟩
  | rdTmp t => exact ⟨fun _ => rfl, fun ht => by simp [isStackAddr] at ht⟩
  | const v => exact ⟨fun _ => rfl, fun ht => by simp [isStackAddr] at ht⟩
  | load e lty la => exact ⟨fun _ => rfl, fun ht => by simp [isStackAddr] at ht⟩
  | unop o a => exact ⟨fun _ => rfl, fun ht => by simp [isStackAddr] at ht⟩
  | iteE c t f => exact ⟨fun _ => rfl, fun ht => by simp [isStackAddr] at ht⟩

/-- Claim C7: `memory_location` yields `StackVar(fn, sp, size)` for
`Get(sp)`, `StackVar(fn, bp, size)` for `Get(bp)`, and
`StackVar(fn, sp|bp ± const, size)` for an Add/Sub `Binop` of `Get(sp|bp)`
and a constant in either argument order (the pointer always on the left of
the `±`); any other address shape yields `MemoryLocation(addr, size)`. Hence
a stack-relative address never yields a `MemoryLocation`, and swapping the
operands of `Binop(Add, Get(sp), Const)` does not change the result. -/
theorem c7_memory_location_correct (arch : Arch) (ctx : StackCtx)
    (ty gty : Ty) (hne : arch.sp_offset ≠ arch.bp_offset) :
    (memory_location (.get arch.sp_offset gty) ctx (some arch) ty =
      .stackVar ctx.fn_addr ctx.stack_ptr (get_type_size_bytes ty)) ∧
    (memory_location (.get arch.bp_offset gty) ctx (some arch) ty =
      .stackVar ctx.fn_addr ctx.base_ptr (get_type_size_bytes ty)) ∧
    (∀ op ∈ addOps, ∀ c : Int,
      (memory_location (.binop op (.get arch.sp_offset gty) (.const c)) ctx
          (some arch) ty =
        .stackVar ctx.fn_addr (ctx.stack_ptr + c) (get_type_size_bytes ty)) ∧
      (memory_location (.binop op (.const c) (.get arch.sp_offset gty)) ctx
          (some arch) ty =
        .stackVar ctx.fn_addr (ctx.stack_ptr + c) (get_type_size_bytes ty)) ∧
      (memory_location (.binop op (.get arch.bp_offset gty) (.const c)) ctx
          (some arch) ty =
        .stackVar ctx.fn_addr (ctx.base_ptr + c) (get_type_size_bytes ty)) ∧
      (memory_location (.binop op (.const c) (.get arch.bp_offset gty)) ctx
          (some arch) ty =
        .stackVar ctx.fn_addr (ctx.base_ptr + c) (get_type_size_bytes ty))) ∧
    (∀ op ∈ subOps, ∀ c : Int,
      (memory_location (.binop op (.get arch.sp_offset gty) (.const c)) ctx
          (some arch) ty =
        .stackVar ctx.fn_addr (ctx.stack_ptr - c) (get_type_size_bytes ty)) ∧
      (memory_location (.binop op (.const c) (.get arch.sp_offset gty)) ctx
          (some arch) ty =
        .stackVar ctx.fn_addr (ctx.stack_ptr - c) (get_type_size_bytes ty)) ∧
      (memory_location (.binop op (.get arch.bp_offset gty) (.const c)) ctx
          (some arch) ty =
        .stackVar ctx.fn_addr (ctx.base_ptr - c) (get_type_size_bytes ty)) ∧
      (memory_location (.binop op (.const c) (.get arch.bp_offset gty)) ctx
          (some arch) ty =
        .stackVar ctx.fn_addr (ctx.base_ptr - c) (get_type_size_bytes ty))) ∧
    (∀ addr : IRExpr, isStackAddr arch addr = false →
      memory_location addr ctx (some arch) ty =
        .memoryLocation addr (get_type_size_bytes ty)) ∧
    (∀ addr : IRExpr, isStackAddr arch addr = true →
      ∃ fn off, memory_location addr ctx (some arch) ty =
        .stackVar fn off (get_type_size_bytes ty)) := by
  have hbpne : arch.bp_offset ≠ arch.sp_offset := Ne.symm hne
  refine ⟨?_, ?_, ?_, ?_, ?_, ?_⟩
  · simp [memory_location, stack_var]
  · simp [memory_location, stack_var, hbpne]
  · intro op hop c
    refine ⟨?_, ?_, ?_, ?_⟩ <;>
      simp [memory_location, stack_var, IRExpr.isGet, IRExpr.isConst, hop,
        hbpne]
  · intro op hop c
    have hnadd : op ∉ addOps := by
      intro hmem
      revert hop
      simp [addOps] at hmem
      rcases hmem with rfl | rfl | rfl | rfl <;> simp [subOps]
    refine ⟨?_, ?_, ?_, ?_⟩ <;>
      simp [memory_location, stack_var, IRExpr.isGet, IRExpr.isConst, hop,
        hnadd, hbpne]
  · intro addr hf
    have hnone := (stack_var_classify arch ctx ty addr).1 hf
    simp [memory_location, hnone]
  · intro addr ht
    obtain ⟨fn, off, hsv⟩ := (stack_var_classify arch ctx ty addr).2 ht
    exact ⟨fn, off, by simp [memory_location, hsv]⟩

/-- Witness for C7 on the AMD64 offsets: a direct `Get(rsp)` load, the
swapped-operand `Add64` form, and a plain register address. -/
theorem c7_memory_location_correct_witness :
    (memory_location (.get 48 .i64) ⟨256, -24, -8⟩ (some amd64) .i32 =
      .stackVar 256 (-24) (get_type_size_bytes .i32)) ∧
    (memory_location (.binop "Iop_Add64" (.const 8) (.get 48 .i64))
        ⟨256, -24, -8⟩ (some amd64) .i32 =
      .stackVar 256 (-16) (get_type_size_bytes .i32)) ∧
    (memory_location (.get 16 .i64) ⟨256, -24, -8⟩ (some amd64) .i32 =
      .memoryLocation (.get 16 .i64) (get_type_size_bytes .i32)) :=
  have h := c7_memory_location_correct amd64 ⟨256, -24, -8⟩ .i32 .i64
    (by decide)
  ⟨h.1,
   by simpa using (h.2.2.1 "Iop_Add64" (by decide) 8).2.1,
   h.2.2.2.2.1 (.get 16 .i64) (by decide)⟩

end SJR
